import Mathlib

/-
Shallow embedding of src/image-processor.js.

Modelling conventions:
- JavaScript numbers are modelled as exact rationals; image dimensions coming
  from a decoded raster are natural numbers.  `Math.round` on a nonnegative
  number is `Int.floor (q + 1/2)` (JS rounds half toward positive infinity).
- A JS `File` is a record of name, declared MIME type, lastModified stamp and
  an opaque binary payload.
- The ambient environment (the global `heic2any` binding, the `window` object
  and its `heic2any` property, `Date.now`, the `FileReader`, the image decoder
  behind `img.onload`, and the canvas encoder behind `canvas.toDataURL`) is a
  record of capabilities passed explicitly.
- Thrown errors / rejected promises are `Except` errors.  Evaluating
  `window.heic2any` while `window` is an unbound identifier is a JS
  ReferenceError, modelled by the `UncaughtReference` error.
- The pipeline additionally records a trace of the effectful stages it ran
  (conversion, file read, image decode, canvas encode) so that claims about
  stages not being performed are expressible.
-/

set_option autoImplicit false

deriving instance DecidableEq for Except

/-- Model of the JS `String.prototype.toLowerCase` method, acting on the
character sequence. -/
def jsToLower (s : String) : String := ⟨s.data.map Char.toLower⟩

/-- Model of the JS `String.prototype.endsWith` method, acting on the
character sequence. -/
def jsEndsWith (s pat : String) : Bool := List.isSuffixOf pat.data s.data

/-- Remove the last `n` characters of a string. -/
def jsDropRight (s : String) (n : Nat) : String :=
  ⟨s.data.take (s.data.length - n)⟩

/-- Model of JS string concatenation, acting on the character sequence. -/
def jsAppend (s t : String) : String := ⟨s.data ++ t.data⟩

/-- Opaque binary payload of a blob. -/
structure Blob where
  id : Nat
deriving DecidableEq, Repr

/-- Model of a JS `File`: payload plus filename, declared MIME type and
modification timestamp. -/
structure File where
  name : String
  type : String
  lastModified : Nat
  blob : Blob
deriving DecidableEq, Repr

/-- Result shape of the external `heic2any` decoder: a single blob or an
array of blobs (line 41 of the source). -/
inductive HeicResult where
  | single (b : Blob)
  | multiple (bs : List Blob)
deriving DecidableEq, Repr

/-- The external decoding capability: receives the file blob (the source
passes the whole `File` as `blob:`) and either returns a result or throws
with a message. -/
def Converter : Type := File → Except String HeicResult

/-- Model of the `window` global object: it may or may not carry a
`heic2any` property. -/
structure WindowObj where
  heic2any : Option Converter

/-- Decoded raster image, as observed through `img.width` and `img.height`
(line 84 and line 85 of the source). -/
structure DecodedImage where
  width : Nat
  height : Nat
deriving DecidableEq, Repr

/-- Ambient environment of the script. -/
structure Env where
  /-- The global binding `heic2any`, when defined. -/
  globalHeic : Option Converter
  /-- The global binding `window`, when defined. -/
  window : Option WindowObj
  /-- The clock behind `Date.now()`. -/
  now : Nat
  /-- The `FileReader.readAsDataURL` capability: returns the data URL, or
  `none` on a read error (`reader.onerror`). -/
  readFile : File → Option String
  /-- The image decoder behind setting `img.src`: returns the decoded raster,
  or `none` when `img.onerror` fires. -/
  decode : String → Option DecodedImage
  /-- The canvas rasterize-and-encode capability: given the decoded image,
  the canvas width and height and the JPEG quality, returns the data URL
  produced by `canvas.toDataURL` after `ctx.drawImage`. -/
  encode : DecodedImage → Nat → Nat → Rat → String

/-- Errors of the pipeline.  Each constructor corresponds to one thrown
`Error` of the source (the spec taxonomy names in comments), except
`UncaughtReference`, which models a JS ReferenceError raised by evaluating
an unbound identifier. -/
inductive ProcErr where
  /-- DependencyMissing: heic2any library is not loaded (line 28). -/
  | DependencyMissing
  /-- ConversionFailed: wraps the message of the underlying cause (line 56). -/
  | ConversionFailed (msg : String)
  /-- ReadFailure: Failed to read file (line 129). -/
  | ReadFailure
  /-- DecodeFailure: Failed to load image (line 118). -/
  | DecodeFailure
  /-- InvalidInput: expected File or data URL string (line 136). -/
  | InvalidInput
  /-- A JS ReferenceError on the named unbound identifier. -/
  | UncaughtReference (name : String)
deriving DecidableEq, Repr

/-- Inputs of `resizeAndConvertToJpeg`: a `File`, a data URL string, or any
other JS value (modelled opaquely, the code only checks the two shapes). -/
inductive Input where
  | file (f : File)
  | dataUrl (s : String)
  | other
deriving Repr

/-- Effectful stages of the pipeline, recorded in a trace. -/
inductive Step where
  | convertStep
  | readStep
  | decodeStep
  | encodeStep
deriving DecidableEq, Repr

/-- Lines 10 to 18 of the source: `isHeicFile`.  A non-`File` input returns
false; otherwise the lowercased filename must end in `.heic` or `.heif`, or
the lowercased MIME type must equal `image/heic` or `image/heif`. -/
def isHeicFile : Input → Bool
  | Input.file file =>
      let fileName := jsToLower file.name
      let mimeType := jsToLower file.type
      jsEndsWith fileName ".heic" ||
      jsEndsWith fileName ".heif" ||
      mimeType == "image/heic" ||
      mimeType == "image/heif"
  | _ => false

/-- Lines 27 to 31 of the source, modelled step by step.  The guard throws
the DependencyMissing error only when the global `heic2any` is undefined,
`window` is defined, and `window.heic2any` is undefined.  Otherwise
`heicConverter` is the global `heic2any` when defined, else
`window.heic2any`; evaluating the latter while `window` is undefined raises
a ReferenceError. -/
def getHeicConverter (env : Env) : Except ProcErr Converter :=
  match env.globalHeic with
  | some c => Except.ok c
  | none =>
    match env.window with
    | some w =>
      match w.heic2any with
      | some c => Except.ok c
      | none => Except.error ProcErr.DependencyMissing
    | none => Except.error (ProcErr.UncaughtReference "window")

/-- Line 41 of the source: `Array.isArray(convertedResult) ?
convertedResult[0] : convertedResult`, with `undefined` (an empty array has
no element 0) modelled as `none`. -/
def selectBlob : HeicResult → Option Blob
  | HeicResult.single b => some b
  | HeicResult.multiple bs => bs.head?

/-- Line 48 of the source: `heicFile.name.replace(/\.(heic|heif)$/i, '.jpg')`.
The regex rewrites only a trailing `.heic` or `.heif` (case-insensitive,
five characters) to `.jpg`; any other name is returned unchanged. -/
def replaceHeicExt (n : String) : String :=
  if jsEndsWith (jsToLower n) ".heic" || jsEndsWith (jsToLower n) ".heif" then
    jsAppend (jsDropRight n 5) ".jpg"
  else n

/-- Lines 25 to 58 of the source: `convertHeicToJpeg`.  The availability
guard runs before the try block, so its errors are not wrapped; everything
inside the try block that throws is wrapped into the ConversionFailed
message prefixed with `Failed to convert HEIC file: `. -/
def convertHeicToJpeg (env : Env) (heicFile : File) : Except ProcErr File :=
  match getHeicConverter env with
  | Except.error e => Except.error e
  | Except.ok heicConverter =>
    match heicConverter heicFile with
    | Except.error msg =>
        Except.error (ProcErr.ConversionFailed
          (jsAppend "Failed to convert HEIC file: " msg))
    | Except.ok convertedResult =>
      match selectBlob convertedResult with
      | none =>
          Except.error (ProcErr.ConversionFailed
            ("Failed to convert HEIC file: Conversion returned no result"))
      | some b =>
          Except.ok
            ⟨replaceHeicExt heicFile.name, "image/jpeg", env.now, b⟩

/-- JS `Math.round`: floor of the argument plus one half (half rounds
toward positive infinity). -/
def jsRound (q : Rat) : Int := Int.floor (q + 1/2)

/-- Lines 84 to 101 of the source: the target-dimension computation of
`resizeAndConvertToJpeg`.  The rounded value is nonnegative here (see
`jsRound_nonneg`), so returning naturals via `Int.toNat` is faithful. -/
def computeDims (width height maxSize : Nat) : Nat × Nat :=
  let isLandscape := width > height
  if isLandscape then
    if width > maxSize then
      (maxSize, (jsRound ((height : Rat) / (width : Rat) * (maxSize : Rat))).toNat)
    else (width, height)
  else
    if height > maxSize then
      ((jsRound ((width : Rat) / (height : Rat) * (maxSize : Rat))).toNat, maxSize)
    else (width, height)

/-- Lines 103 to 118 of the source: decode the data URL (the `img` element
load), compute the target dimensions, rasterize and encode on the canvas.
Returns the result together with the trace of stages run. -/
def decodeAndRender (env : Env) (s : String) (maxSize : Nat) (quality : Rat)
    (tr : List Step) : Except ProcErr String × List Step :=
  match env.decode s with
  | none => (Except.error ProcErr.DecodeFailure, tr ++ [Step.decodeStep])
  | some img =>
      let d := computeDims img.width img.height maxSize
      (Except.ok (env.encode img d.1 d.2 quality),
        tr ++ [Step.decodeStep, Step.encodeStep])

/-- Lines 69 to 139 of the source: `resizeAndConvertToJpeg`.  First the
optional HEIC conversion (line 72 to line 76), then the shape dispatch on
the processed input (line 123 to line 137), then read, decode, rasterize
and encode. -/
def resizeAndConvertToJpeg (env : Env) (input : Input) (maxSize : Nat)
    (quality : Rat) : Except ProcErr String × List Step :=
  let step1 : Except ProcErr Input × List Step :=
    match input with
    | Input.file f =>
        if isHeicFile (Input.file f) then
          match convertHeicToJpeg env f with
          | Except.ok g => (Except.ok (Input.file g), [Step.convertStep])
          | Except.error e => (Except.error e, [Step.convertStep])
        else (Except.ok (Input.file f), [])
    | i => (Except.ok i, [])
  match step1 with
  | (Except.error e, tr) => (Except.error e, tr)
  | (Except.ok processedInput, tr) =>
    match processedInput with
    | Input.file f =>
        match env.readFile f with
        | none => (Except.error ProcErr.ReadFailure, tr ++ [Step.readStep])
        | some s => decodeAndRender env s maxSize quality (tr ++ [Step.readStep])
    | Input.dataUrl s => decodeAndRender env s maxSize quality tr
    | Input.other => (Except.error ProcErr.InvalidInput, tr)

/-- Round half away from zero, the rounding rule named by the spec. -/
def specRound (q : Rat) : Int :=
  if 0 ≤ q then Int.floor (q + 1/2) else -Int.floor (-q + 1/2)

/-- Modelled from the spec (section 4.3 step 4), for comparison with the
code: if `w > h` and `w > maxSize` then `(maxSize, round(h * maxSize / w))`;
else if `h >= w` and `h > maxSize` then `(round(w * maxSize / h), maxSize)`;
otherwise unchanged, with round-half-away-from-zero. -/
def specTargetDims (w h maxSize : Nat) : Nat × Nat :=
  if w > h ∧ w > maxSize then
    (maxSize, (specRound ((h : Rat) * (maxSize : Rat) / (w : Rat))).toNat)
  else if h ≥ w ∧ h > maxSize then
    ((specRound ((w : Rat) * (maxSize : Rat) / (h : Rat))).toNat, maxSize)
  else (w, h)

/-- Availability of the external decoding capability: defined globally, or
as a property of a defined `window`. -/
def heicAvailable (env : Env) : Bool :=
  env.globalHeic.isSome ||
    (match env.window with
     | some w => w.heic2any.isSome
     | none => false)

/-! Concrete environments and files used to evaluate the model. -/

/-- A converter that succeeds with a single blob. -/
def okConverter : Converter := fun _ => Except.ok (HeicResult.single ⟨1⟩)

/-- A converter that throws with message `boom`. -/
def failConverter : Converter := fun _ => Except.error "boom"

/-- A converter that returns an empty array of blobs. -/
def emptyConverter : Converter := fun _ => Except.ok (HeicResult.multiple [])

/-- An environment whose global `heic2any` succeeds. -/
def okEnv : Env := ⟨some okConverter, none, 42, fun _ => none, fun _ => none,
  fun _ _ _ _ => ""⟩

/-- An environment whose global `heic2any` throws. -/
def failEnv : Env := ⟨some failConverter, none, 0, fun _ => none,
  fun _ => none, fun _ _ _ _ => ""⟩

/-- An environment whose global `heic2any` returns an empty array. -/
def emptyResultEnv : Env := ⟨some emptyConverter, none, 0, fun _ => none,
  fun _ => none, fun _ _ _ _ => ""⟩

/-- An environment with neither a global `heic2any` nor a `window` object,
such as a plain scripting host outside a browser. -/
def noWindowEnv : Env := ⟨none, none, 0, fun _ => none, fun _ => none,
  fun _ _ _ _ => ""⟩

/-- An environment with a `window` object that has no `heic2any` property
and no global `heic2any`: a browser without the library loaded. -/
def bareBrowserEnv : Env := ⟨none, some ⟨none⟩, 0, fun _ => none,
  fun _ => none, fun _ _ _ _ => ""⟩

/-- A HEIC file named `img.heic`. -/
def heicFile1 : File := ⟨"img.heic", "image/heic", 7, ⟨0⟩⟩

/-- The output of converting `heicFile1` under `okEnv`. -/
def heicFile1Conv : File := ⟨"img.jpg", "image/jpeg", 42, ⟨1⟩⟩

/-- A file detected as HEIC only through its MIME type. -/
def mimeOnlyHeic : File := ⟨"photo.png", "image/heic", 3, ⟨0⟩⟩

/-! Helper lemmas about the rounding function. -/

theorem jsRound_nonneg {q : Rat} (hq : 0 ≤ q) : 0 ≤ jsRound q := by
  unfold jsRound
  have : (0 : Rat) ≤ q + 1/2 := by linarith
  exact Int.floor_nonneg.mpr this

theorem jsRound_le {q : Rat} {m : Nat} (hq : q ≤ (m : Rat)) :
    jsRound q ≤ (m : Int) := by
  unfold jsRound
  have h1 : Int.floor (q + 1/2) < (m : Int) + 1 :=
    Int.floor_lt.mpr (by push_cast; linarith)
  omega

theorem jsRound_abs_sub (q : Rat) : |((jsRound q : Int) : Rat) - q| ≤ 1 := by
  unfold jsRound
  have h1 : ((Int.floor (q + 1/2) : Int) : Rat) ≤ q + 1/2 := Int.floor_le _
  have h2 : q + 1/2 < ((Int.floor (q + 1/2) : Int) : Rat) + 1 :=
    Int.lt_floor_add_one _
  rw [abs_le]
  constructor <;> linarith

theorem specRound_eq_jsRound {q : Rat} (hq : 0 ≤ q) :
    specRound q = jsRound q := by
  unfold specRound jsRound
  rw [if_pos hq]

/-- Claim C1: for every decoded image with dimensions `(w, h)` and every
`maxSize`, the target dimensions computed by `resizeAndConvertToJpeg`
(`computeDims`, lines 84 to 101 of the source) equal the reference
definition of the spec (`specTargetDims`): if `w > h` and `w > maxSize`
then `(maxSize, round(h * maxSize / w))`; else if `h >= w` and
`h > maxSize` then `(round(w * maxSize / h), maxSize)`; otherwise `(w, h)`,
with round-half-away-from-zero. -/
theorem computeDims_eq_specTargetDims (w h maxSize : Nat) :
    computeDims w h maxSize = specTargetDims w h maxSize := by
  unfold computeDims specTargetDims
  by_cases hwh : w > h
  · by_cases hwm : w > maxSize
    · have hx : (0 : Rat) ≤ (h : Rat) * (maxSize : Rat) / (w : Rat) := by
        positivity
      rw [if_pos hwh, if_pos hwm, if_pos ⟨hwh, hwm⟩,
        specRound_eq_jsRound hx, div_mul_eq_mul_div]
    · have hnot : ¬ (w > h ∧ w > maxSize) := fun hc => hwm hc.2
      have hnot2 : ¬ (h ≥ w ∧ h > maxSize) := fun hc => absurd hc.1 (by omega)
      rw [if_pos hwh, if_neg hwm, if_neg hnot, if_neg hnot2]
  · by_cases hhm : h > maxSize
    · have hx : (0 : Rat) ≤ (w : Rat) * (maxSize : Rat) / (h : Rat) := by
        positivity
      have hnot : ¬ (w > h ∧ w > maxSize) := fun hc => hwh hc.1
      rw [if_neg hwh, if_pos hhm, if_neg hnot, if_pos ⟨by omega, hhm⟩,
        specRound_eq_jsRound hx, div_mul_eq_mul_div]
    · have hnot : ¬ (w > h ∧ w > maxSize) := fun hc => hwh hc.1
      have hnot2 : ¬ (h ≥ w ∧ h > maxSize) := fun hc => hhm hc.2
      rw [if_neg hwh, if_neg hhm, if_neg hnot, if_neg hnot2]

theorem jsRound_toNat_le {a b m : Nat} (hab : a ≤ b) (hb : 0 < b) :
    (jsRound ((a : Rat) / (b : Rat) * (m : Rat))).toNat ≤ m := by
  have hx : (a : Rat) / (b : Rat) * (m : Rat) ≤ (m : Rat) := by
    have h1 : (a : Rat) / (b : Rat) ≤ 1 := by
      rw [div_le_one (by exact_mod_cast hb)]
      exact_mod_cast hab
    have h2 : (0 : Rat) ≤ (m : Rat) := by positivity
    nlinarith
  have h3 := jsRound_le hx
  omega

theorem computeDims_fix {w h m : Nat} (h1 : w > h → w ≤ m)
    (h2 : h ≥ w → h ≤ m) : computeDims w h m = (w, h) := by
  unfold computeDims
  by_cases hwh : w > h
  · rw [if_pos hwh, if_neg (by omega)]
  · rw [if_neg hwh, if_neg (by omega)]

/-- Claim C5: the target-dimension computation is idempotent, so running
`process` on its own output with the same `maxSize` yields an output with
the same dimensions: applying `computeDims` to the dimensions it produced
returns those same dimensions. -/
theorem computeDims_idem (w h maxSize : Nat) :
    computeDims (computeDims w h maxSize).1 (computeDims w h maxSize).2
      maxSize = computeDims w h maxSize := by
  by_cases hwh : w > h
  · by_cases hwm : w > maxSize
    · have hpair : computeDims w h maxSize =
          (maxSize,
            (jsRound ((h : Rat) / (w : Rat) * (maxSize : Rat))).toNat) := by
        unfold computeDims
        rw [if_pos hwh, if_pos hwm]
      have hb : (jsRound ((h : Rat) / (w : Rat) * (maxSize : Rat))).toNat ≤
          maxSize := jsRound_toNat_le (le_of_lt hwh) (by omega)
      rw [hpair]
      exact computeDims_fix (fun _ => le_refl maxSize) (fun _ => hb)
    · have hpair : computeDims w h maxSize = (w, h) := by
        unfold computeDims
        rw [if_pos hwh, if_neg hwm]
      rw [hpair]
      exact computeDims_fix (fun _ => by omega) (fun hge => by omega)
  · by_cases hhm : h > maxSize
    · have hpair : computeDims w h maxSize =
          ((jsRound ((w : Rat) / (h : Rat) * (maxSize : Rat))).toNat,
            maxSize) := by
        unfold computeDims
        rw [if_neg hwh, if_pos hhm]
      have hb : (jsRound ((w : Rat) / (h : Rat) * (maxSize : Rat))).toNat ≤
          maxSize := jsRound_toNat_le (by omega) (by omega)
      rw [hpair]
      exact computeDims_fix (fun hgt => by omega) (fun _ => le_refl maxSize)
    · have hpair : computeDims w h maxSize = (w, h) := by
        unfold computeDims
        rw [if_neg hwh, if_neg hhm]
      rw [hpair]
      exact computeDims_fix (fun hgt => by omega) (fun _ => by omega)

/-- Claim C2: if the larger input dimension exceeds `maxSize`, the larger
output dimension of `computeDims` equals exactly `maxSize` and the
non-dominant output dimension is within one pixel of the exactly
proportional value; if the larger input dimension is at most `maxSize`,
the dimensions are unchanged (no upscaling). -/
theorem resize_bounds (w h maxSize : Nat) :
    (max w h ≤ maxSize → computeDims w h maxSize = (w, h)) ∧
    (maxSize < max w h →
      max (computeDims w h maxSize).1 (computeDims w h maxSize).2 = maxSize ∧
      (h < w → (computeDims w h maxSize).1 = maxSize ∧
        |((computeDims w h maxSize).2 : Rat) -
          (h : Rat) * (maxSize : Rat) / (w : Rat)| ≤ 1) ∧
      (w ≤ h → (computeDims w h maxSize).2 = maxSize ∧
        |((computeDims w h maxSize).1 : Rat) -
          (w : Rat) * (maxSize : Rat) / (h : Rat)| ≤ 1)) := by
  constructor
  · intro hle
    exact computeDims_fix (fun _ => by omega) (fun _ => by omega)
  · intro hgt
    by_cases hwh : w > h
    · have hwm : w > maxSize := by omega
      have hpair : computeDims w h maxSize =
          (maxSize,
            (jsRound ((h : Rat) / (w : Rat) * (maxSize : Rat))).toNat) := by
        unfold computeDims
        rw [if_pos hwh, if_pos hwm]
      have hb : (jsRound ((h : Rat) / (w : Rat) * (maxSize : Rat))).toNat ≤
          maxSize := jsRound_toNat_le (le_of_lt hwh) (by omega)
      rw [div_mul_eq_mul_div] at hpair hb
      have hnn : 0 ≤ jsRound ((h : Rat) * (maxSize : Rat) / (w : Rat)) :=
        jsRound_nonneg (by positivity)
      have hcast :
          (((jsRound ((h : Rat) * (maxSize : Rat) / (w : Rat))).toNat : Nat) :
            Rat) = ((jsRound ((h : Rat) * (maxSize : Rat) / (w : Rat)) : Int) :
            Rat) := by
        exact_mod_cast Int.toNat_of_nonneg hnn
      have habs := jsRound_abs_sub ((h : Rat) * (maxSize : Rat) / (w : Rat))
      rw [hpair]
      refine ⟨Nat.max_eq_left hb, fun _ => ⟨rfl, ?_⟩,
        fun hle => absurd hwh (by omega)⟩
      simpa [hcast] using habs
    · have hhm : h > maxSize := by omega
      have hpair : computeDims w h maxSize =
          ((jsRound ((w : Rat) / (h : Rat) * (maxSize : Rat))).toNat,
            maxSize) := by
        unfold computeDims
        rw [if_neg hwh, if_pos hhm]
      have hb : (jsRound ((w : Rat) / (h : Rat) * (maxSize : Rat))).toNat ≤
          maxSize := jsRound_toNat_le (by omega) (by omega)
      rw [div_mul_eq_mul_div] at hpair hb
      have hnn : 0 ≤ jsRound ((w : Rat) * (maxSize : Rat) / (h : Rat)) :=
        jsRound_nonneg (by positivity)
      have hcast :
          (((jsRound ((w : Rat) * (maxSize : Rat) / (h : Rat))).toNat : Nat) :
            Rat) = ((jsRound ((w : Rat) * (maxSize : Rat) / (h : Rat)) : Int) :
            Rat) := by
        exact_mod_cast Int.toNat_of_nonneg hnn
      have habs := jsRound_abs_sub ((w : Rat) * (maxSize : Rat) / (h : Rat))
      rw [hpair]
      refine ⟨Nat.max_eq_right hb, fun hlt => absurd hwh (by omega),
        fun _ => ⟨rfl, ?_⟩⟩
      simpa [hcast] using habs

/-- Witness for claim C2 at the concrete scenarios of the spec: a 4000 by
3000 input at `maxSize = 512` resizes so that the larger output dimension
is 512, and a 300 by 200 input at `maxSize = 512` is unchanged. -/
theorem resize_bounds_witness :
    max (computeDims 4000 3000 512).1 (computeDims 4000 3000 512).2 = 512 ∧
    computeDims 300 200 512 = (300, 200) :=
  ⟨((resize_bounds 4000 3000 512).2 (by norm_num)).1,
   (resize_bounds 300 200 512).1 (by norm_num)⟩

/-! Helper lemmas about the conversion function. -/

theorem convertOk_fields {env : Env} {f g : File}
    (hok : convertHeicToJpeg env f = Except.ok g) :
    g.name = replaceHeicExt f.name ∧ g.type = "image/jpeg" ∧
    g.lastModified = env.now := by
  unfold convertHeicToJpeg at hok
  split at hok
  · cases hok
  · split at hok
    · cases hok
    · split at hok
      · cases hok
      · injection hok with hg
        rw [← hg]
        exact ⟨rfl, rfl, rfl⟩

theorem convertHeicToJpeg_ok_conv {env : Env} {conv : Converter}
    (hgc : getHeicConverter env = Except.ok conv) (f : File) :
    convertHeicToJpeg env f =
      match conv f with
      | Except.error msg =>
          Except.error (ProcErr.ConversionFailed
            (jsAppend "Failed to convert HEIC file: " msg))
      | Except.ok r =>
        match selectBlob r with
        | none =>
            Except.error (ProcErr.ConversionFailed
              "Failed to convert HEIC file: Conversion returned no result")
        | some b =>
            Except.ok ⟨replaceHeicExt f.name, "image/jpeg", env.now, b⟩ := by
  unfold convertHeicToJpeg
  rw [hgc]

theorem convertHeicToJpeg_sel {env : Env} {conv : Converter} {f : File}
    {r : HeicResult} (hgc : getHeicConverter env = Except.ok conv)
    (hcv : conv f = Except.ok r) :
    convertHeicToJpeg env f =
      match selectBlob r with
      | none =>
          Except.error (ProcErr.ConversionFailed
            "Failed to convert HEIC file: Conversion returned no result")
      | some b =>
          Except.ok ⟨replaceHeicExt f.name, "image/jpeg", env.now, b⟩ := by
  rw [convertHeicToJpeg_ok_conv hgc f, hcv]

theorem replaceHeicExt_id {n : String}
    (h1 : jsEndsWith (jsToLower n) ".heic" = false)
    (h2 : jsEndsWith (jsToLower n) ".heif" = false) :
    replaceHeicExt n = n := by
  unfold replaceHeicExt
  rw [h1, h2]
  rfl

/-- Claim C3: `isHeicFile` returns true for a `File` exactly when its
lowercased filename ends in `.heic` or `.heif` or its lowercased MIME type
equals `image/heic` or `image/heif`; every non-`File` input returns false.
In particular it accepts `photo.HEIC`, `photo.heif` and any file declared
as `image/heic`, and rejects `photo.jpg` with a non-legacy MIME type and
all textual inputs. -/
theorem isHeicFile_spec :
    (∀ n t lm b, isHeicFile (Input.file ⟨n, t, lm, b⟩) = true ↔
      (jsEndsWith (jsToLower n) ".heic" = true ∨
       jsEndsWith (jsToLower n) ".heif" = true ∨
       jsToLower t = "image/heic" ∨ jsToLower t = "image/heif")) ∧
    (∀ s, isHeicFile (Input.dataUrl s) = false) ∧
    isHeicFile Input.other = false ∧
    isHeicFile (Input.file ⟨"photo.HEIC", "", 0, ⟨0⟩⟩) = true ∧
    isHeicFile (Input.file ⟨"photo.heif", "", 0, ⟨0⟩⟩) = true ∧
    (∀ n lm b, isHeicFile (Input.file ⟨n, "image/heic", lm, b⟩) = true) ∧
    isHeicFile (Input.file ⟨"photo.jpg", "image/jpeg", 0, ⟨0⟩⟩) = false := by
  refine ⟨?_, fun s => rfl, rfl, by decide, by decide, ?_, by decide⟩
  · intro n t lm b
    simp only [isHeicFile, Bool.or_eq_true, beq_iff_eq]
    tauto
  · intro n lm b
    have hm : jsToLower "image/heic" = "image/heic" := by decide
    simp [isHeicFile, hm]

/-- Claim C6: on success `convertHeicToJpeg` returns a new file whose name
is the original name with a trailing `.heic`/`.heif` replaced by `.jpg`,
whose MIME type is `image/jpeg`, and whose timestamp is the current clock
value; in particular `img.heic` becomes `img.jpg`.  The input record is
not modified (the model is a pure function of the input). -/
theorem convert_success_fields :
    (∀ env f g, convertHeicToJpeg env f = Except.ok g →
      g.name = replaceHeicExt f.name ∧ g.type = "image/jpeg" ∧
      g.lastModified = env.now) ∧
    replaceHeicExt "img.heic" = "img.jpg" :=
  ⟨fun _ _ _ hok => convertOk_fields hok, by decide⟩

/-- Witness for claim C6: converting the concrete file `img.heic` in an
environment with a working decoder yields `img.jpg` with MIME type
`image/jpeg` and the fresh timestamp. -/
theorem convert_success_fields_witness :
    heicFile1Conv.name = replaceHeicExt heicFile1.name ∧
    heicFile1Conv.type = "image/jpeg" ∧
    heicFile1Conv.lastModified = okEnv.now :=
  convert_success_fields.1 okEnv heicFile1 heicFile1Conv (by decide)

/-- Claim C7: when the decoder is present and either throws or yields no
usable blob (in particular an empty array, whose first element would be
selected), `convertHeicToJpeg` fails with the ConversionFailed error whose
message wraps the message of the underlying cause, and returns no file. -/
theorem convert_failure_wrapped :
    (∀ env conv f msg, getHeicConverter env = Except.ok conv →
      conv f = Except.error msg →
      convertHeicToJpeg env f =
        Except.error (ProcErr.ConversionFailed
          (jsAppend "Failed to convert HEIC file: " msg))) ∧
    (∀ env conv f r, getHeicConverter env = Except.ok conv →
      conv f = Except.ok r → selectBlob r = none →
      convertHeicToJpeg env f =
        Except.error (ProcErr.ConversionFailed
          "Failed to convert HEIC file: Conversion returned no result")) ∧
    selectBlob (HeicResult.multiple []) = none := by
  refine ⟨?_, ?_, rfl⟩
  · intro env conv f msg hgc hcv
    rw [convertHeicToJpeg_ok_conv hgc f, hcv]
  · intro env conv f r hgc hcv hsb
    rw [convertHeicToJpeg_sel hgc hcv, hsb]

/-- Witness for claim C7: a throwing decoder surfaces as a wrapped
ConversionFailed message ending in the cause `boom`, and a decoder
returning an empty array surfaces as the wrapped
`Conversion returned no result` message. -/
theorem convert_failure_wrapped_witness :
    convertHeicToJpeg failEnv heicFile1 =
      Except.error (ProcErr.ConversionFailed
        "Failed to convert HEIC file: boom") ∧
    convertHeicToJpeg emptyResultEnv heicFile1 =
      Except.error (ProcErr.ConversionFailed
        "Failed to convert HEIC file: Conversion returned no result") := by
  have h1 := convert_failure_wrapped.1 failEnv failConverter heicFile1
    "boom" rfl rfl
  have h2 := convert_failure_wrapped.2.1 emptyResultEnv emptyConverter
    heicFile1 (HeicResult.multiple []) rfl rfl rfl
  rw [h1, h2]
  exact ⟨by decide, rfl⟩

/-- Claim C10: when a file is detected as a legacy container only by its
MIME type (its lowercased name ends in neither `.heic` nor `.heif`), a
successful conversion keeps the filename character-for-character unchanged
while still forcing the MIME type to `image/jpeg`. -/
theorem convert_keeps_name :
    ∀ env f g, convertHeicToJpeg env f = Except.ok g →
      isHeicFile (Input.file f) = true →
      jsEndsWith (jsToLower f.name) ".heic" = false →
      jsEndsWith (jsToLower f.name) ".heif" = false →
      g.name = f.name ∧ g.type = "image/jpeg" := by
  intro env f g hok hheic h1 h2
  have hfields := convertOk_fields hok
  exact ⟨by rw [hfields.1, replaceHeicExt_id h1 h2], hfields.2.1⟩

/-- Witness for claim C10: converting `photo.png` declared as `image/heic`
keeps the name `photo.png` and forces the type `image/jpeg`. -/
theorem convert_keeps_name_witness :
    (⟨"photo.png", "image/jpeg", 42, ⟨1⟩⟩ : File).name = mimeOnlyHeic.name ∧
    (⟨"photo.png", "image/jpeg", 42, ⟨1⟩⟩ : File).type = "image/jpeg" :=
  convert_keeps_name okEnv mimeOnlyHeic ⟨"photo.png", "image/jpeg", 42, ⟨1⟩⟩
    (by decide) (by decide) (by decide) (by decide)

/-- Claim C8: an input that is neither a `File` nor a string is rejected
with the InvalidInput error, in every environment, and the trace is empty:
no conversion, read, decode or encode stage runs.  The optional legacy
conversion maps a `File` to a `File`, so such an input can only be the
original one. -/
theorem invalid_input_rejected :
    ∀ env maxSize quality,
      resizeAndConvertToJpeg env Input.other maxSize quality =
        (Except.error ProcErr.InvalidInput, ([] : List Step)) :=
  fun _ _ _ => rfl

/-- Claim C9: the dimension computation can output a zero dimension on
strictly positive inputs: a 10000 by 1 image at `maxSize = 512` yields
target dimensions 512 by 0, since `round(1 * 512 / 10000) = 0`. -/
theorem computeDims_zero_output :
    1 ≤ (10000 : Nat) ∧ 1 ≤ (1 : Nat) ∧
    computeDims 10000 1 512 = (512, 0) := by
  refine ⟨by norm_num, le_refl 1, ?_⟩
  unfold computeDims
  norm_num [jsRound]

/-- Counterexample for claim C4: in an environment with no global
`heic2any` and no `window` object the capability is unavailable, yet
`resizeAndConvertToJpeg` on a legacy-container file does not reject with
the DependencyMissing error: the guard on line 27 of the source is false
(its middle conjunct requires `window` to be defined), and line 31 then
evaluates `window.heic2any`, raising a ReferenceError on `window`. -/
theorem dependency_missing_counterexample :
    heicAvailable noWindowEnv = false ∧
    isHeicFile (Input.file heicFile1) = true ∧
    (resizeAndConvertToJpeg noWindowEnv (Input.file heicFile1) 512 1).1 =
      Except.error (ProcErr.UncaughtReference "window") ∧
    (resizeAndConvertToJpeg noWindowEnv (Input.file heicFile1) 512 1).1 ≠
      Except.error ProcErr.DependencyMissing := by
  refine ⟨rfl, by decide, rfl, ?_⟩
  intro hc
  cases hc

/-- Claim C4 as amended: in an environment where the `window` global
object exists (a browser) but the decoder is available neither globally
nor as a `window` property, `resizeAndConvertToJpeg` on an input detected
as a legacy container rejects with the DependencyMissing error, having run
only the conversion stage. -/
theorem dependency_missing_amended :
    ∀ env w f maxSize quality, env.globalHeic = none →
      env.window = some w → w.heic2any = none →
      isHeicFile (Input.file f) = true →
      resizeAndConvertToJpeg env (Input.file f) maxSize quality =
        (Except.error ProcErr.DependencyMissing, [Step.convertStep]) := by
  intro env wo f m q hg hw hh hheic
  have hdep : getHeicConverter env =
      Except.error ProcErr.DependencyMissing := by
    unfold getHeicConverter
    simp only [hg, hw, hh]
  have hcv : convertHeicToJpeg env f =
      Except.error ProcErr.DependencyMissing := by
    unfold convertHeicToJpeg
    rw [hdep]
  simp [resizeAndConvertToJpeg, hheic, hcv]

/-- Witness for the amended claim C4: a browser environment without the
library rejects the file `img.heic` with the DependencyMissing error. -/
theorem dependency_missing_amended_witness :
    resizeAndConvertToJpeg bareBrowserEnv (Input.file heicFile1) 512 1 =
      (Except.error ProcErr.DependencyMissing, [Step.convertStep]) :=
  dependency_missing_amended bareBrowserEnv ⟨none⟩ heicFile1 512 1 rfl rfl
    rfl (by decide)

/-- Witness for claim C3: the detection predicate applied through the iff
at a concrete mixed-case filename. -/
theorem isHeicFile_spec_witness :
    isHeicFile (Input.file ⟨"a.HeIc", "text/plain", 0, ⟨0⟩⟩) = true :=
  (isHeicFile_spec.1 "a.HeIc" "text/plain" 0 ⟨0⟩).mpr (Or.inl (by decide))
